import Mathlib

/-! Quiz routes (`src/routes/quiz.js`).

A shallow embedding of the route handlers of `routes/quiz.js` that take a quiz
id, over an explicit document store, and the properties of these handlers that
the specification states.

Every handler is a function from the store before the request to the response
and the store after it.  Each `await`ed store call of a handler is numbered in
the order the handler reaches it (0, 1, 2, ...), and the argument `fault` says
which of these calls throw: a throwing call is caught by the handler's
`try`/`catch` and answered with status 500, `"Server error"`.  A store call
throws when the store is unavailable and on schema validation errors.  The
cast of the quiz id of the path is not among the faults: it is part of the
query (`Quiz.query`), which throws on a string that is not an identifier.  The
cast of the question id of the path is among the faults of the question lookup.

The `views` counter is a JavaScript number that holds a non-negative integer;
`quiz.views += 1` is the addition of doubles (`jsAdd`), exact up to `2 ^ 53`
and rounded to the nearest double beyond.
-/

set_option autoImplicit false

namespace Quizzie

/-! ## Values -/

/-- JavaScript values that a parsed JSON body can hold, and `undefined` for a
property that is not there.  Numbers carry an integer. -/
inductive JSValue where
  | undefined
  | null
  | bool (b : Bool)
  | num (n : Int)
  | str (s : String)
  | arr (items : List JSValue)
  | obj (fields : List (String × JSValue))

/-- A JavaScript object: its own enumerable properties in insertion order. -/
abbrev Obj := List (String × JSValue)

/-- A hexadecimal digit. -/
def isHexDigit (c : Char) : Bool :=
  ('0' ≤ c && c ≤ '9') || ('a' ≤ c && c ≤ 'f') || ('A' ≤ c && c ≤ 'F')

/-- Whether a string casts to a document identifier: 24 hexadecimal digits. -/
def isObjectId (raw : String) : Bool :=
  raw.toList.length == 24 && raw.toList.all isHexDigit

/-- A document identifier: a string of 24 hexadecimal digits.  The identifiers
of stored records are of this type; the path parameters of a request are
strings, which the store casts. -/
structure Id where
  hex : String
  valid : isObjectId hex = true
  deriving DecidableEq

/-- The cast of a string to an identifier; `none` is a cast error. -/
def Id.cast (raw : String) : Option Id :=
  if h : isObjectId raw = true then some ⟨raw, h⟩ else none

/-- The spacing of the doubles at the magnitude of `n`: the least `u` among
`1, 2, 4, ...` with `n < 2 ^ 53 * u`, searched for `fuel` doublings from `u`. -/
def spacing : Nat → Nat → Nat → Nat
  | 0, _, u => u
  | fuel + 1, n, u => if n < 2 ^ 53 * u then u else spacing fuel n (2 * u)

/-- The double nearest to the natural number `n`, ties to the even significand
(for `n` below `2 ^ 1024`, where doubles are finite). -/
def roundDouble (n : Nat) : Nat :=
  let u := spacing 1024 n 1
  let q := n / u
  let r := n % u
  if 2 * r < u then q * u
  else if u < 2 * r then (q + 1) * u
  else if q % 2 == 0 then q * u
  else (q + 1) * u

/-- The sum `a + b` of two JavaScript numbers that hold non-negative integers:
the exact sum, rounded to a double. -/
def jsAdd (a b : Nat) : Nat := roundDouble (a + b)

namespace JSValue

/-- Truthiness, as tested by `if (name)`. -/
def truthy : JSValue → Bool
  | undefined => false
  | null => false
  | bool b => b
  | num n => n != 0
  | str s => s != ""
  | arr _ => true
  | obj _ => true

/-- The test `Array.isArray(v)`. -/
def isArray : JSValue → Bool
  | arr _ => true
  | _ => false

/-- The elements that `for (const x of v)` visits when `v` is an array. -/
def elements : JSValue → List JSValue
  | arr items => items
  | _ => []

/-- The own enumerable properties that the spread `...v` copies: the fields of
an object, the indexed elements of an array, the indexed characters of a
string, and nothing for the other values. -/
def ownProps : JSValue → Obj
  | obj fields => fields
  | arr items => items.enum.map (fun p => (toString p.1, p.2))
  | str s => s.toList.enum.map (fun p => (toString p.1, JSValue.str (String.singleton p.2)))
  | _ => []

end JSValue

namespace Obj

/-- Property read `o.k`: the value of the property, `undefined` when absent. -/
def get (o : Obj) (k : String) : JSValue :=
  match o.find? (fun p => p.1 == k) with
  | some p => p.2
  | none => JSValue.undefined

/-- Whether `o` has an own property `k`. -/
def hasKey (o : Obj) (k : String) : Bool :=
  o.any (fun p => p.1 == k)

/-- Property write `o.k = v`: overwrite in place, or add at the end. -/
def set : Obj → String → JSValue → Obj
  | [], k, v => [(k, v)]
  | p :: rest, k, v => if p.1 == k then (k, v) :: rest else p :: set rest k v

end Obj

/-! ## Documents -/

/-- Modelled from the spec: the Quiz record of `models/Quiz`, which is not among
the sources (id, name, type, owner, ordered question ids, view counter). -/
structure Quiz where
  _id : Id
  name : JSValue
  type : JSValue
  user : JSValue
  questions : List Id
  views : Nat

/-- Modelled from the spec: the Question record of `models/Question`, which is
not among the sources (id, the `quiz` linkage, and the further fields supplied
by the caller, kept as they are). -/
structure Question where
  _id : Id
  quiz : Option Id
  fields : Obj

/-- Modelled from the spec: the cast of a value to an identifier when it is
assigned to an identifier-typed path: a string is cast to the identifier,
`null` and `undefined` unset the path, any other value is a cast error. -/
def castId : JSValue → Option (Option Id)
  | JSValue.str s => (Id.cast s).map some
  | JSValue.null => some none
  | JSValue.undefined => some none
  | _ => none

/-- Modelled from the spec: the assignment `question[k] = v` that
`Object.assign` makes on a Question document loaded from the store
("field-by-field overwrite").  `none` means that the `save()` that follows
throws.
* `quiz` is cast and replaces the linkage.
* `_id`: the identifier of a stored record is immutable; writing the id the
  record has changes nothing, any other value makes `save()` throw.
* `id` is the read-only name of the identifier; the assignment is ignored.
* a key for which `member` holds names a member of the document object (a
  method such as `save`); the assignment overwrites the member and `save()`
  throws.  The document class is not among the sources, so `member` is an
  argument.
* any other key overwrites the field of that name. -/
def Question.setField (member : String → Bool) (q : Question) (k : String) (v : JSValue) :
    Option Question :=
  if k == "quiz" then
    (castId v).map (fun i => { q with quiz := i })
  else if k == "_id" then
    match v with
    | JSValue.str s => if s == q._id.hex then some q else none
    | _ => none
  else if k == "id" then some q
  else if member k then none
  else some { q with fields := Obj.set q.fields k v }

/-- The call `Object.assign(question, props)`: assigns the properties of `props`
one after the other. -/
def Question.assign (member : String → Bool) : Question → Obj → Option Question
  | q, [] => some q
  | q, p :: rest =>
    match Question.setField member q p.1 p.2 with
    | some q1 => Question.assign member q1 rest
    | none => none

/-- Modelled from the spec: the value that the constructor `new Question(o)`
takes from the property `k` of `o`: `quiz` is cast to the linkage, an `_id`
is cast to the identifier, `id` is ignored, and any other property is a field
of the record.  `none` is a cast error, which `save()` throws. -/
def Question.initField (q : Question) (k : String) (v : JSValue) : Option Question :=
  if k == "quiz" then
    (castId v).map (fun i => { q with quiz := i })
  else if k == "_id" then
    match v with
    | JSValue.str s => (Id.cast s).map (fun i => { q with _id := i })
    | _ => none
  else if k == "id" then some q
  else some { q with fields := Obj.set q.fields k v }

/-- The properties of `o` taken one after the other by the constructor. -/
def Question.initFields : Question → Obj → Option Question
  | q, [] => some q
  | q, p :: rest =>
    match Question.initField q p.1 p.2 with
    | some q1 => Question.initFields q1 rest
    | none => none

/-- The construction `new Question(o)`: a record with the fresh identifier `id`
that takes the properties of `o`. -/
def Question.create (id : Id) (o : Obj) : Option Question :=
  Question.initFields { _id := id, quiz := none, fields := [] } o

/-- The object literal `{ quiz: quizId, ...question }` of the bulk insert: the
property `quiz` first, then the own properties of the payload written over it. -/
def spreadPayload (quizId : String) (question : JSValue) : Obj :=
  question.ownProps.foldl (fun o p => Obj.set o p.1 p.2) [("quiz", JSValue.str quizId)]

/-! ## The document store -/

/-- Modelled from the spec: the document store, one collection of Quiz records
and one of Question records. -/
structure Store where
  quizzes : List Quiz
  questions : List Question

/-- Replace the first element that satisfies `p` by `y`. -/
def replaceFirst {α : Type} (p : α → Bool) (y : α) : List α → List α
  | [] => []
  | x :: xs => if p x then y :: xs else x :: replaceFirst p y xs

/-- Remove the first element that satisfies `p`. -/
def removeFirst {α : Type} (p : α → Bool) : List α → List α
  | [] => []
  | x :: xs => if p x then xs else x :: removeFirst p xs

/-- The record that the id `quizId` resolves to, if any. -/
def Quiz.findById (s : Store) (quizId : String) : Option Quiz :=
  s.quizzes.find? (fun q => q._id.hex == quizId)

/-- The awaited query `Quiz.findById(quizId)` on the path parameter: the store
casts the parameter; on a string that is not an identifier the query throws a
cast error (`none`), and otherwise it gives the record or `null`. -/
def Quiz.query (s : Store) (quizId : String) : Option (Option Quiz) :=
  if isObjectId quizId then some (Quiz.findById s quizId) else none

/-- The call `quiz.save()` on a loaded record: writes it back under its id. -/
def Quiz.save (s : Store) (quiz : Quiz) : Store :=
  { s with quizzes := replaceFirst (fun q => q._id.hex == quiz._id.hex) quiz s.quizzes }

/-- The effect of `Quiz.findByIdAndDelete(quizId)`: the removed record, if any,
and the store without it. -/
def Quiz.findByIdAndDelete (s : Store) (quizId : String) : Option Quiz × Store :=
  match Quiz.findById s quizId with
  | none => (none, s)
  | some q =>
    (some q, { s with quizzes := removeFirst (fun x => x._id.hex == quizId) s.quizzes })

/-- The awaited query `Quiz.findByIdAndDelete(quizId)` on the path parameter:
as `Quiz.query`, it throws (`none`) on a string that is not an identifier. -/
def Quiz.queryAndDelete (s : Store) (quizId : String) : Option (Option Quiz × Store) :=
  if isObjectId quizId then some (Quiz.findByIdAndDelete s quizId) else none

/-- The query `Question.findById(questionId)`.  The cast of `questionId` is
among the faults of this store call. -/
def Question.findById (s : Store) (questionId : String) : Option Question :=
  s.questions.find? (fun q => q._id.hex == questionId)

/-- The call `newQuestion.save()` on a record just constructed: an insert. -/
def Question.insert (s : Store) (q : Question) : Store :=
  { s with questions := s.questions ++ [q] }

/-- The call `question.save()` on the record loaded under `questionId`. -/
def Question.save (s : Store) (questionId : String) (q : Question) : Store :=
  { s with questions := replaceFirst (fun x => x._id.hex == questionId) q s.questions }

/-- The query `Question.deleteMany({ quiz: quizId })`. -/
def Question.deleteMany (s : Store) (quizId : String) : Store :=
  { s with questions := s.questions.filter (fun q => !(q.quiz.map Id.hex == some quizId)) }

/-- Population of the `questions` path: every listed id that resolves, in the
order of the list. -/
def populate (s : Store) (ids : List Id) : List Question :=
  ids.filterMap (fun i => Question.findById s i.hex)

/-! ## Responses -/

/-- The JSON bodies the handlers send. -/
inductive Body where
  | message (message : String)
  | quizAndQuestions (quiz : Quiz) (questions : List Question)
  | quizDetail (quiz : Quiz) (questions : List Question)
  | views (message : String) (views : Nat)
  | quizUpdated (message : String) (quiz : Quiz)
  | questionUpdated (message : String) (question : Question)

/-- A response: `res.status(status).json(body)`. -/
structure Response where
  status : Nat
  body : Body

/-- The response of every `catch` block. -/
def serverError : Response := ⟨500, Body.message "Server error"⟩

/-- The response to a quiz id that does not resolve. -/
def quizNotFound : Response := ⟨404, Body.message "Quiz not found"⟩

/-- The response to a question id that does not resolve in the quiz. -/
def questionNotFound : Response := ⟨404, Body.message "Question not found"⟩

/-- The response to a `questions` value that is not an array. -/
def invalidInput : Response := ⟨400, Body.message "Invalid input format"⟩

/-- A store none of whose calls throws. -/
def noFault : Nat → Bool := fun _ => false

/-! ## Handlers -/

/-- The loop of `router.post("/:quizId/questions")` (lines 45-53): constructs and
saves one Question per payload, in order.  The payload at position `k` gets the
identifier `mkId k` and its `save()` is store call `k + 1`.  On a throw the
result is the store reached so far. -/
def saveQuestions (fault : Nat → Bool) (mkId : Nat → Id) (quizId : String) :
    List JSValue → Nat → Store → List Question → Except Store (Store × List Question)
  | [], _, s, savedQuestions => Except.ok (s, savedQuestions)
  | question :: rest, k, s, savedQuestions =>
    match Question.create (mkId k) (spreadPayload quizId question) with
    | none => Except.error s
    | some newQuestion =>
      if fault (k + 1) then Except.error s
      else saveQuestions fault mkId quizId rest (k + 1) (Question.insert s newQuestion)
        (savedQuestions ++ [newQuestion])

/-- The handler `router.post("/:quizId/questions")`, lines 28-64. -/
def addQuestions (fault : Nat → Bool) (mkId : Nat → Id) (s : Store) (quizId : String)
    (body : Obj) : Response × Store :=
  let questions := Obj.get body "questions"
  if fault 0 then (serverError, s)
  else
    match Quiz.query s quizId with
    | none => (serverError, s)
    | some none => (quizNotFound, s)
    | some (some quiz) =>
      if !questions.isArray then (invalidInput, s)
      else
        match saveQuestions fault mkId quizId questions.elements 0 s [] with
        | Except.error s1 => (serverError, s1)
        | Except.ok (s1, savedQuestions) =>
          let quiz1 := { quiz with questions := savedQuestions.map Question._id }
          if fault (questions.elements.length + 1) then (serverError, s1)
          else (⟨201, Body.quizAndQuestions quiz1 savedQuestions⟩, Quiz.save s1 quiz1)

/-- The handler `router.get("/:quizId")`, lines 79-101.  The nested population of
`options` goes through a model `Option` that is not among the sources; it is the
argument `expandOptions`. -/
def getQuizDetail (fault : Nat → Bool) (expandOptions : Question → Question) (s : Store)
    (quizId : String) : Response × Store :=
  if fault 0 then (serverError, s)
  else
    match Quiz.query s quizId with
    | none => (serverError, s)
    | some none => (quizNotFound, s)
    | some (some quiz) => (⟨200, Body.quizDetail quiz ((populate s quiz.questions).map expandOptions)⟩, s)

/-- The handler `router.put("/:quizId/views")`, lines 103-128. -/
def incrementViews (fault : Nat → Bool) (s : Store) (quizId : String) : Response × Store :=
  if fault 0 then (serverError, s)
  else
    match Quiz.query s quizId with
    | none => (serverError, s)
    | some none => (quizNotFound, s)
    | some (some quiz) =>
      let quiz1 := { quiz with views := jsAdd quiz.views 1 }
      if fault 1 then (serverError, s)
      else (⟨200, Body.views "Views count incremented" quiz1.views⟩, Quiz.save s quiz1)

/-- The handler `router.delete("/:quizId")`, lines 131-152. -/
def deleteQuiz (fault : Nat → Bool) (s : Store) (quizId : String) : Response × Store :=
  if fault 0 then (serverError, s)
  else
    match Quiz.queryAndDelete s quizId with
    | none => (serverError, s)
    | some (none, _) => (quizNotFound, s)
    | some (some _, s1) =>
      if fault 1 then (serverError, s1)
      else (⟨200, Body.message "Quiz and associated questions deleted successfully"⟩,
        Question.deleteMany s1 quizId)

/-- The handler `router.put("/:quizId")`, lines 155-179. -/
def updateQuiz (fault : Nat → Bool) (s : Store) (quizId : String) (body : Obj) :
    Response × Store :=
  let name := Obj.get body "name"
  let type := Obj.get body "type"
  if fault 0 then (serverError, s)
  else
    match Quiz.query s quizId with
    | none => (serverError, s)
    | some none => (quizNotFound, s)
    | some (some quiz) =>
      let quiz1 := if name.truthy then { quiz with name := name } else quiz
      let quiz2 := if type.truthy then { quiz1 with type := type } else quiz1
      if fault 1 then (serverError, s)
      else (⟨200, Body.quizUpdated "Quiz updated successfully" quiz2⟩, Quiz.save s quiz2)

/-- The handler `router.put("/:quizId/questions/:questionId")`, lines 182-216.
A question without `quiz` makes `question.quiz.toString()` throw.  The argument
`member` says which keys name a member of the document object (see
`Question.setField`). -/
def updateQuestion (fault : Nat → Bool) (member : String → Bool) (s : Store)
    (quizId questionId : String) (updatedData : Obj) : Response × Store :=
  if fault 0 then (serverError, s)
  else
    match Quiz.query s quizId with
    | none => (serverError, s)
    | some none => (quizNotFound, s)
    | some (some _) =>
      if fault 1 then (serverError, s)
      else
        match Question.findById s questionId with
        | none => (questionNotFound, s)
        | some question =>
          match question.quiz with
          | none => (serverError, s)
          | some owner =>
            if owner.hex != quizId then (questionNotFound, s)
            else
              match Question.assign member question updatedData with
              | none => (serverError, s)
              | some question1 =>
                if fault 2 then (serverError, s)
                else (⟨200, Body.questionUpdated "Question updated successfully" question1⟩,
                  Question.save s questionId question1)

/-! ## Concurrent view increments

`IncrementViews` reaches the store twice: the read `Quiz.findById` and the write
`quiz.save()`.  Between the two the handler is suspended and other requests
run.  A call is in one of three phases, and a schedule says which call takes
its next store step. -/

/-- The phase of one `router.put("/:quizId/views")` request. -/
inductive ViewsCall where
  | start
  | loaded (quiz : Quiz)
  | done (response : Response)

/-- One store step of a views request: the read (line 108), then the increment
and the write (lines 115-123). -/
def ViewsCall.step (quizId : String) (s : Store) : ViewsCall → ViewsCall × Store
  | ViewsCall.start =>
    match Quiz.query s quizId with
    | none => (ViewsCall.done serverError, s)
    | some none => (ViewsCall.done quizNotFound, s)
    | some (some quiz) => (ViewsCall.loaded quiz, s)
  | ViewsCall.loaded quiz =>
    let quiz1 := { quiz with views := jsAdd quiz.views 1 }
    (ViewsCall.done ⟨200, Body.views "Views count incremented" quiz1.views⟩, Quiz.save s quiz1)
  | ViewsCall.done response => (ViewsCall.done response, s)

/-- The store and the phase of every request. -/
structure Concurrent where
  store : Store
  calls : Nat → ViewsCall

/-- All requests at their start. -/
def Concurrent.init (s : Store) : Concurrent := ⟨s, fun _ => ViewsCall.start⟩

/-- Request `i` takes its next store step. -/
def Concurrent.step (quizId : String) (c : Concurrent) (i : Nat) : Concurrent :=
  let r := ViewsCall.step quizId c.store (c.calls i)
  ⟨r.2, fun j => if j = i then r.1 else c.calls j⟩

/-- Run a schedule: the list of the requests that step, in order. -/
def Concurrent.run (quizId : String) (c : Concurrent) (schedule : List Nat) : Concurrent :=
  schedule.foldl (Concurrent.step quizId) c

/-- A schedule of `n` requests in which every request takes both its steps. -/
def completeSchedule (n : Nat) (schedule : List Nat) : Prop :=
  (∀ i ∈ schedule, i < n) ∧ ∀ i, i < n → schedule.count i = 2

/-- The schedule without interleaving: each request of `order` reads and then
writes before the next one starts. -/
def serialSchedule (order : List Nat) : List Nat :=
  order.flatMap (fun i => [i, i])

/-- The `views` value a finished request returned. -/
def ViewsCall.returned : ViewsCall → Option Nat
  | ViewsCall.done ⟨_, Body.views _ v⟩ => some v
  | _ => none

/-- The stored `views` of a quiz. -/
def storedViews (s : Store) (quizId : String) : Option Nat :=
  (Quiz.findById s quizId).map Quiz.views


/-! ## Example data -/

/-- A quiz id. -/
def exQuizId : Id := ⟨"64b000000000000000000001", by decide⟩

/-- The id of a second quiz. -/
def exOtherQuizId : Id := ⟨"64b000000000000000000002", by decide⟩

/-- A quiz id that is in no store below. -/
def exAbsentQuizId : Id := ⟨"64b0000000000000000000ff", by decide⟩

/-- The id of the question of the first quiz. -/
def exQuestionId : Id := ⟨"64c000000000000000000001", by decide⟩

/-- The id of the question of the second quiz. -/
def exOtherQuestionId : Id := ⟨"64c000000000000000000002", by decide⟩

/-- A question id that is in no store below. -/
def exAbsentQuestionId : Id := ⟨"64c0000000000000000000ff", by decide⟩

/-- A path parameter that is not an identifier. -/
def exBadId : String := "abc"

/-- A quiz with one linked question and three views. -/
def exQuiz : Quiz :=
  ⟨exQuizId, JSValue.str "Geo", JSValue.str "trivia", JSValue.str "64a000000000000000000001",
    [exQuestionId], 3⟩

/-- A second quiz, of another user. -/
def exOtherQuiz : Quiz :=
  ⟨exOtherQuizId, JSValue.str "Art", JSValue.str "poll", JSValue.str "64a000000000000000000002",
    [exOtherQuestionId], 0⟩

/-- The question of the first quiz. -/
def exQuestion : Question :=
  ⟨exQuestionId, some exQuizId, [("text", JSValue.str "Capital of France?")]⟩

/-- The question of the second quiz. -/
def exOtherQuestion : Question :=
  ⟨exOtherQuestionId, some exOtherQuizId, [("text", JSValue.str "Favourite painter?")]⟩

/-- A store with two quizzes of one question each. -/
def exStore : Store := ⟨[exQuiz, exOtherQuiz], [exQuestion, exOtherQuestion]⟩

/-- Fresh question ids, by position in the request. -/
def exMkId : Nat → Id
  | 0 => ⟨"64d000000000000000000000", by decide⟩
  | 1 => ⟨"64d000000000000000000001", by decide⟩
  | 2 => ⟨"64d000000000000000000002", by decide⟩
  | _ => ⟨"64d0000000000000000000ff", by decide⟩

/-- A quiz whose counter is at `2 ^ 53`. -/
def exBigQuiz : Quiz :=
  ⟨exQuizId, JSValue.str "Geo", JSValue.str "trivia", JSValue.str "64a000000000000000000001",
    [], 2 ^ 53⟩

/-- A store with that quiz alone. -/
def exBigStore : Store := ⟨[exBigQuiz], []⟩

/-- Member names of a document: the methods `save` and `validate`. -/
def exMember : String → Bool := fun k => k == "save" || k == "validate"

/-! ## Lemmas on identifiers and numbers -/

theorem Id.hex_injective : Function.Injective Id.hex := by
  intro a b h
  cases a; cases b
  simp only at h
  subst h
  rfl

theorem spacing_hit (fuel n u : Nat) (h : n < 2 ^ 53 * u) : spacing (fuel + 1) n u = u := by
  show (if n < 2 ^ 53 * u then u else spacing fuel n (2 * u)) = u
  exact if_pos h

/-- A natural number up to `2 ^ 53` is a double. -/
theorem roundDouble_exact (n : Nat) (h : n ≤ 2 ^ 53) : roundDouble n = n := by
  by_cases hlt : n < 2 ^ 53
  · have hu : spacing 1024 n 1 = 1 := spacing_hit 1023 n 1 (by omega)
    simp only [roundDouble, hu, Nat.mod_one, Nat.div_one, Nat.mul_one, Nat.mul_zero,
      Nat.zero_lt_one, if_true]
  · have hn : n = 2 ^ 53 := by omega
    subst hn
    decide

/-- Adding one to a counter below `2 ^ 53` is exact. -/
theorem jsAdd_one (v : Nat) (h : v < 2 ^ 53) : jsAdd v 1 = v + 1 :=
  roundDouble_exact (v + 1) (by omega)

/-! ## Lemmas on the store -/

theorem find?_replaceFirst_hit {α : Type} (p : α → Bool) (y : α) (hy : p y = true) :
    ∀ (l : List α) (x : α), l.find? p = some x → (replaceFirst p y l).find? p = some y := by
  intro l
  induction l with
  | nil => intro x h; simp at h
  | cons a l ih =>
    intro x h
    by_cases ha : p a = true
    · simp [replaceFirst, ha, List.find?, hy]
    · simp only [Bool.not_eq_true] at ha
      simp only [List.find?, ha] at h
      simp [replaceFirst, ha, List.find?, ih x h]

theorem find?_replaceFirst_miss {α : Type} (p r : α → Bool) (y : α) (hy : r y = false)
    (hp : ∀ x, p x = true → r x = false) :
    ∀ l : List α, (replaceFirst p y l).find? r = l.find? r := by
  intro l
  induction l with
  | nil => simp [replaceFirst]
  | cons a l ih =>
    by_cases ha : p a = true
    · simp [replaceFirst, ha, List.find?, hy, hp a ha]
    · simp only [Bool.not_eq_true] at ha
      simp [replaceFirst, ha, List.find?, ih]

theorem mem_replaceFirst_of_not {α : Type} (p : α → Bool) (y x : α) (hy : p y = true)
    (hx : p x = false) : ∀ l : List α, x ∈ replaceFirst p y l ↔ x ∈ l := by
  intro l
  induction l with
  | nil => simp [replaceFirst]
  | cons a l ih =>
    have hxy : x ≠ y := by
      intro h; rw [h, hy] at hx; exact Bool.noConfusion hx
    by_cases ha : p a = true
    · have hxa : x ≠ a := by
        intro h; rw [h, ha] at hx; exact Bool.noConfusion hx
      simp [replaceFirst, ha, hxy, hxa]
    · simp only [Bool.not_eq_true] at ha
      simp [replaceFirst, ha, ih]

theorem length_replaceFirst {α : Type} (p : α → Bool) (y : α) :
    ∀ l : List α, (replaceFirst p y l).length = l.length := by
  intro l
  induction l with
  | nil => rfl
  | cons a l ih =>
    by_cases ha : p a = true
    · simp [replaceFirst, ha]
    · simp only [Bool.not_eq_true] at ha
      simp [replaceFirst, ha, ih]

theorem not_mem_removeFirst {α : Type} (f : α → String) (a : String) :
    ∀ l : List α, (l.map f).Nodup → ∀ x ∈ removeFirst (fun x => f x == a) l, f x ≠ a := by
  intro l
  induction l with
  | nil => intro _ x hx; simp [removeFirst] at hx
  | cons b l ih =>
    intro hnd x hx
    rw [List.map_cons, List.nodup_cons] at hnd
    by_cases hb : f b = a
    · simp only [removeFirst, hb, beq_self_eq_true, if_true] at hx
      intro hxa
      exact hnd.1 (List.mem_map.mpr ⟨x, hx, by rw [hxa, hb]⟩)
    · have hb1 : (f b == a) = false := by simpa using hb
      simp only [removeFirst, hb1, Bool.false_eq_true, if_false, List.mem_cons] at hx
      rcases hx with rfl | hx
      · exact hb
      · exact ih hnd.2 x hx

theorem Quiz.found_quiz_id {s : Store} {quizId : String} {quiz : Quiz}
    (h : Quiz.findById s quizId = some quiz) : quiz._id.hex = quizId := by
  have := List.find?_some h
  simpa using this

/-- A path parameter that resolves is an identifier. -/
theorem Quiz.found_is_id {s : Store} {quizId : String} {quiz : Quiz}
    (h : Quiz.findById s quizId = some quiz) : isObjectId quizId = true := by
  rw [← Quiz.found_quiz_id h]
  exact quiz._id.valid

theorem Quiz.query_found {s : Store} {quizId : String} {quiz : Quiz}
    (h : Quiz.findById s quizId = some quiz) : Quiz.query s quizId = some (some quiz) := by
  simp [Quiz.query, Quiz.found_is_id h, h]

theorem Quiz.findById_none_of_absent {s : Store} {quizId : String}
    (h : ∀ q ∈ s.quizzes, q._id.hex ≠ quizId) : Quiz.findById s quizId = none := by
  unfold Quiz.findById
  rw [List.find?_eq_none]
  intro x hx
  simpa using h x hx

theorem Quiz.query_absent {s : Store} {quizId : String}
    (h : ∀ q ∈ s.quizzes, q._id.hex ≠ quizId) (hcast : isObjectId quizId = true) :
    Quiz.query s quizId = some none := by
  simp [Quiz.query, hcast, Quiz.findById_none_of_absent h]

/-- Saving a record that was loaded under `quizId`, with its id kept: the lookup
of `quizId` gives the saved record. -/
theorem Quiz.findById_save_hit {s : Store} {quizId : String} {quiz quiz1 : Quiz}
    (h : Quiz.findById s quizId = some quiz) (hid : quiz1._id.hex = quizId) :
    Quiz.findById (Quiz.save s quiz1) quizId = some quiz1 := by
  unfold Quiz.findById Quiz.save
  simp only [hid]
  exact find?_replaceFirst_hit (fun q : Quiz => q._id.hex == quizId) quiz1 (by simp [hid])
    s.quizzes quiz h

theorem Quiz.findById_save_miss {s : Store} {quizId other : String} (quiz1 : Quiz)
    (hid : quiz1._id.hex = quizId) (hne : other ≠ quizId) :
    Quiz.findById (Quiz.save s quiz1) other = Quiz.findById s other := by
  unfold Quiz.findById Quiz.save
  simp only [hid]
  apply find?_replaceFirst_miss
  · simp [hid]; exact fun h => hne h.symm
  · intro x hx
    simp at hx
    simp [hx]; exact fun h => hne h.symm

theorem Question.found_question_id {s : Store} {questionId : String} {question : Question}
    (h : Question.findById s questionId = some question) : question._id.hex = questionId := by
  have := List.find?_some h
  simpa using this

/-- An assignment of properties other than `quiz` that does not fail keeps the
linkage and the identifier. -/
theorem Question.assign_keeps (member : String → Bool) (fields : Obj) :
    ∀ q q1 : Question, Question.assign member q fields = some q1 →
      Obj.hasKey fields "quiz" = false → q1.quiz = q.quiz ∧ q1._id = q._id := by
  induction fields with
  | nil =>
    intro q q1 h _
    simp only [Question.assign, Option.some.injEq] at h
    subst h
    exact ⟨rfl, rfl⟩
  | cons p rest ih =>
    intro q q1 h hquiz
    simp only [Obj.hasKey, List.any_cons, Bool.or_eq_false_iff] at hquiz
    simp only [Question.assign] at h
    cases hset : Question.setField member q p.1 p.2 with
    | none => simp [hset] at h
    | some q2 =>
      simp only [hset] at h
      have hrest := ih q2 q1 h hquiz.2
      have hq2 : q2.quiz = q.quiz ∧ q2._id = q._id := by
        simp only [Question.setField, hquiz.1, Bool.false_eq_true, if_false] at hset
        split at hset
        · split at hset
          · split at hset
            · simp only [Option.some.injEq] at hset; subst hset; exact ⟨rfl, rfl⟩
            · exact absurd hset (by simp)
          · exact absurd hset (by simp)
        · split at hset
          · simp only [Option.some.injEq] at hset; subst hset; exact ⟨rfl, rfl⟩
          · split at hset
            · exact absurd hset (by simp)
            · simp only [Option.some.injEq] at hset; subst hset; exact ⟨rfl, rfl⟩
      exact ⟨hrest.1.trans hq2.1, hrest.2.trans hq2.2⟩


/-! ## AddQuestions -/

/-- C1: a payload that carries its own `quiz` property.  The request adds one
question to the first quiz of the example store, and the payload names the
second quiz: the call succeeds with 201, and the created question is stored with
`quiz` equal to the second quiz, not to the quiz of the path. -/
theorem addQuestions_payload_quiz_wins :
    (addQuestions noFault exMkId exStore exQuizId.hex
        [("questions", JSValue.arr [JSValue.obj
          [("quiz", JSValue.str exOtherQuizId.hex),
            ("text", JSValue.str "Capital of Japan?")]])]).1.status
        = 201
      ∧ (Question.findById
          (addQuestions noFault exMkId exStore exQuizId.hex
            [("questions", JSValue.arr [JSValue.obj
              [("quiz", JSValue.str exOtherQuizId.hex),
                ("text", JSValue.str "Capital of Japan?")]])]).2
          (exMkId 0).hex).map Question.quiz = some (some exOtherQuizId)
      ∧ exOtherQuizId ≠ exQuizId := by
  refine ⟨rfl, rfl, by decide⟩

/-- C2: a second bulk insert into a quiz that already lists a question.  The
first quiz of the example store lists `exQuestionId`; after a successful insert
of one payload its stored `questions` is the one new id alone, and the id that
was listed before is no longer in it. -/
theorem addQuestions_replaces_list :
    (Quiz.findById exStore exQuizId.hex).map Quiz.questions = some [exQuestionId]
      ∧ (addQuestions noFault exMkId exStore exQuizId.hex
          [("questions", JSValue.arr [JSValue.obj
            [("text", JSValue.str "Capital of Japan?")]])]).1.status = 201
      ∧ (Quiz.findById
          (addQuestions noFault exMkId exStore exQuizId.hex
            [("questions", JSValue.arr [JSValue.obj
              [("text", JSValue.str "Capital of Japan?")]])]).2
          exQuizId.hex).map Quiz.questions = some [exMkId 0]
      ∧ [exMkId 0] ≠ [exQuestionId] ++ [exMkId 0] := by
  refine ⟨rfl, rfl, rfl, by decide⟩

/-! ## IncrementViews -/

/-- C3, as stated, fails: a quiz whose counter is at `2 ^ 53`.  The quiz exists,
`IncrementViews` answers 200, and both the returned and the stored `views` are
`2 ^ 53` again, not `2 ^ 53 + 1`: the sum is rounded to the nearest double. -/
theorem incrementViews_saturates :
    Quiz.findById exBigStore exQuizId.hex = some exBigQuiz
      ∧ exBigQuiz.views = 2 ^ 53
      ∧ (incrementViews noFault exBigStore exQuizId.hex).1
        = ⟨200, Body.views "Views count incremented" (2 ^ 53)⟩
      ∧ storedViews (incrementViews noFault exBigStore exQuizId.hex).2 exQuizId.hex
        = some (2 ^ 53)
      ∧ 2 ^ 53 ≠ 2 ^ 53 + 1 := by
  refine ⟨rfl, rfl, rfl, rfl, by decide⟩

/-- C3, amended: on an existing quiz with `views = v`, `v < 2 ^ 53`, and a store
whose two calls do not throw, a single `IncrementViews` answers 200 with
`views = v + 1`, leaves the stored quiz equal to the old one except for
`views = v + 1`, and changes no other quiz record and no question record. -/
theorem incrementViews_single (fault : Nat → Bool) (s : Store) (quizId : String)
    (quiz : Quiz)
    (hfind : Quiz.findById s quizId = some quiz) (hsafe : quiz.views < 2 ^ 53)
    (h0 : fault 0 = false) (h1 : fault 1 = false) :
    (incrementViews fault s quizId).1
        = ⟨200, Body.views "Views count incremented" (quiz.views + 1)⟩
      ∧ Quiz.findById (incrementViews fault s quizId).2 quizId
        = some { quiz with views := quiz.views + 1 }
      ∧ (∀ other, other ≠ quizId →
          Quiz.findById (incrementViews fault s quizId).2 other = Quiz.findById s other)
      ∧ (∀ x : Quiz, x._id.hex ≠ quizId →
          (x ∈ (incrementViews fault s quizId).2.quizzes ↔ x ∈ s.quizzes))
      ∧ (incrementViews fault s quizId).2.quizzes.length = s.quizzes.length
      ∧ (incrementViews fault s quizId).2.questions = s.questions := by
  have hid : quiz._id.hex = quizId := Quiz.found_quiz_id hfind
  have hrun : incrementViews fault s quizId
      = (⟨200, Body.views "Views count incremented" (quiz.views + 1)⟩,
          Quiz.save s { quiz with views := quiz.views + 1 }) := by
    simp [incrementViews, h0, h1, Quiz.query_found hfind, jsAdd_one quiz.views hsafe]
  rw [hrun]
  refine ⟨rfl, ?_, ?_, ?_, ?_, rfl⟩
  · exact Quiz.findById_save_hit hfind hid
  · intro other hne
    exact Quiz.findById_save_miss { quiz with views := quiz.views + 1 } hid hne
  · intro x hx
    simp only [Quiz.save, hid]
    apply mem_replaceFirst_of_not
    · simp [hid]
    · simpa using hx
  · simp [Quiz.save, length_replaceFirst]

/-- Witness of `incrementViews_single` on the example store. -/
theorem incrementViews_single_witness :
    Quiz.findById exStore exQuizId.hex = some exQuiz ∧ exQuiz.views < 2 ^ 53
      ∧ noFault 0 = false ∧ noFault 1 = false
      ∧ (incrementViews noFault exStore exQuizId.hex).1
        = ⟨200, Body.views "Views count incremented" (exQuiz.views + 1)⟩
      ∧ Quiz.findById (incrementViews noFault exStore exQuizId.hex).2 exQuizId.hex
        = some { exQuiz with views := exQuiz.views + 1 } :=
  have h := incrementViews_single noFault exStore exQuizId.hex exQuiz rfl (by decide) rfl rfl
  ⟨rfl, by decide, rfl, rfl, h.1, h.2.1⟩

/-! ## Concurrent IncrementViews -/

/-- The handler is its two store steps run one after the other. -/
theorem incrementViews_eq_steps (s : Store) (quizId : String) :
    (Concurrent.run quizId (Concurrent.init s) [0, 0]).store
        = (incrementViews noFault s quizId).2
      ∧ (Concurrent.run quizId (Concurrent.init s) [0, 0]).calls 0
        = ViewsCall.done (incrementViews noFault s quizId).1 := by
  rcases h : Quiz.query s quizId with _ | _ | quiz <;>
    simp [Concurrent.run, Concurrent.step, Concurrent.init, ViewsCall.step, incrementViews,
      noFault, h]

theorem serialSchedule_cons (i : Nat) (rest : List Nat) :
    serialSchedule (i :: rest) = i :: i :: serialSchedule rest := rfl

/-- A request at its start that reads and writes without another request in
between adds one to a stored counter below `2 ^ 53` and returns the new value. -/
theorem Concurrent.step_twice (quizId : String) (c : Concurrent) (i : Nat) (quiz : Quiz)
    (hfind : Quiz.findById c.store quizId = some quiz) (hsafe : quiz.views < 2 ^ 53)
    (hstart : c.calls i = ViewsCall.start) :
    Quiz.findById (Concurrent.step quizId (Concurrent.step quizId c i) i).store quizId
        = some { quiz with views := quiz.views + 1 }
      ∧ ((Concurrent.step quizId (Concurrent.step quizId c i) i).calls i).returned
        = some (quiz.views + 1)
      ∧ ∀ j, j ≠ i → (Concurrent.step quizId (Concurrent.step quizId c i) i).calls j = c.calls j := by
  have hid : quiz._id.hex = quizId := Quiz.found_quiz_id hfind
  have hquery := Quiz.query_found hfind
  have hadd := jsAdd_one quiz.views hsafe
  refine ⟨?_, ?_, ?_⟩
  · simp only [Concurrent.step, ViewsCall.step, hstart, hquery, hadd, if_true]
    exact Quiz.findById_save_hit hfind hid
  · simp [Concurrent.step, ViewsCall.step, hstart, hquery, hadd, ViewsCall.returned]
  · intro j hj
    simp [Concurrent.step, hj]

/-- Steps of other requests leave the phase of request `j` as it is. -/
theorem Concurrent.run_calls_of_not_mem (quizId : String) (j : Nat) :
    ∀ (schedule : List Nat) (c : Concurrent), j ∉ schedule →
      (Concurrent.run quizId c schedule).calls j = c.calls j := by
  intro schedule
  induction schedule with
  | nil => intro c _; rfl
  | cons i rest ih =>
    intro c hj
    rw [List.mem_cons, not_or] at hj
    have h := ih (Concurrent.step quizId c i) hj.2
    simp only [Concurrent.run, List.foldl_cons] at h ⊢
    rw [h]
    simp [Concurrent.step, hj.1]

theorem mem_serialSchedule (j : Nat) (order : List Nat) :
    j ∈ serialSchedule order ↔ j ∈ order := by
  induction order with
  | nil => simp [serialSchedule]
  | cons i rest ih => rw [serialSchedule_cons]; simp [ih]

/-- The serial run from any state in which the requests of `order` are at their
start. -/
theorem Concurrent.run_serial (quizId : String) :
    ∀ (order : List Nat) (c : Concurrent) (quiz : Quiz),
      Quiz.findById c.store quizId = some quiz → quiz.views + order.length ≤ 2 ^ 53 →
      (∀ i ∈ order, c.calls i = ViewsCall.start) → order.Nodup →
      storedViews (Concurrent.run quizId c (serialSchedule order)).store quizId
          = some (quiz.views + order.length)
        ∧ order.map (fun i => ((Concurrent.run quizId c (serialSchedule order)).calls i).returned)
          = (List.range' (quiz.views + 1) order.length).map some := by
  intro order
  induction order with
  | nil =>
    intro c quiz hfind _ _ _
    simp [serialSchedule, Concurrent.run, storedViews, hfind]
  | cons i rest ih =>
    intro c quiz hfind hsafe hstart hnodup
    rw [List.nodup_cons] at hnodup
    rw [List.length_cons] at hsafe
    obtain ⟨hstore, hret, hframe⟩ :=
      Concurrent.step_twice quizId c i quiz hfind (by omega)
        (hstart i (List.mem_cons_self i rest))
    have hrest : ∀ j ∈ rest,
        (Concurrent.step quizId (Concurrent.step quizId c i) i).calls j = ViewsCall.start := by
      intro j hj
      rw [hframe j (fun h => hnodup.1 (h ▸ hj))]
      exact hstart j (List.mem_cons_of_mem i hj)
    have h := ih (Concurrent.step quizId (Concurrent.step quizId c i) i)
      { quiz with views := quiz.views + 1 } hstore (by simp only; omega) hrest hnodup.2
    have hrun : Concurrent.run quizId c (serialSchedule (i :: rest))
        = Concurrent.run quizId (Concurrent.step quizId (Concurrent.step quizId c i) i)
            (serialSchedule rest) := by
      rw [serialSchedule_cons]; rfl
    have hi : (Concurrent.run quizId (Concurrent.step quizId (Concurrent.step quizId c i) i)
        (serialSchedule rest)).calls i
        = (Concurrent.step quizId (Concurrent.step quizId c i) i).calls i :=
      Concurrent.run_calls_of_not_mem quizId i _ _
        (fun hmem => hnodup.1 ((mem_serialSchedule i rest).mp hmem))
    rw [hrun]
    constructor
    · rw [h.1]; simp only [List.length_cons]; congr 1; omega
    · rw [List.map_cons, h.2, hi, hret]
      simp only [List.length_cons, List.range'_succ, List.map_cons]

theorem count_serialSchedule (j : Nat) (order : List Nat) :
    (serialSchedule order).count j = 2 * order.count j := by
  induction order with
  | nil => simp [serialSchedule]
  | cons i rest ih =>
    rw [serialSchedule_cons]
    simp only [List.count_cons, ih]
    split <;> omega

/-- C4, as stated, fails, in two ways.  Two requests on the first quiz of the
example store (`views = 3`) that both read before either writes: every request
takes both its steps, the stored counter ends at 4 and not at 3 + 2, and both
requests return 4.  And one request alone on a quiz whose counter is at
`2 ^ 53`: the counter stays at `2 ^ 53`. -/
theorem incrementViews_lost_update :
    completeSchedule 2 [0, 1, 0, 1]
      ∧ storedViews exStore exQuizId.hex = some 3
      ∧ storedViews (Concurrent.run exQuizId.hex (Concurrent.init exStore) [0, 1, 0, 1]).store
          exQuizId.hex = some 4
      ∧ ((Concurrent.run exQuizId.hex (Concurrent.init exStore) [0, 1, 0, 1]).calls 0).returned
          = some 4
      ∧ ((Concurrent.run exQuizId.hex (Concurrent.init exStore) [0, 1, 0, 1]).calls 1).returned
          = some 4
      ∧ 4 ≠ 3 + 2
      ∧ completeSchedule 1 (serialSchedule [0])
      ∧ storedViews exBigStore exQuizId.hex = some (2 ^ 53)
      ∧ storedViews
          (Concurrent.run exQuizId.hex (Concurrent.init exBigStore) (serialSchedule [0])).store
          exQuizId.hex = some (2 ^ 53)
      ∧ 2 ^ 53 ≠ 2 ^ 53 + 1 := by
  refine ⟨⟨by decide, by decide⟩, rfl, rfl, rfl, rfl, by decide, ⟨by decide, by decide⟩,
    rfl, rfl, by decide⟩

/-- C4, amended: `n` `IncrementViews` requests on an existing quiz with
`views = v0`, `v0 + n ≤ 2 ^ 53`, that run one after the other, in any order
(each request reads and writes before the next one reads), end with
`views = v0 + n`, every request returns a value in `v0 + 1 .. v0 + n`, and the
returned values are pairwise distinct. -/
theorem incrementViews_serial (s : Store) (quizId : String) (quiz : Quiz) (n : Nat)
    (order : List Nat) (hfind : Quiz.findById s quizId = some quiz)
    (hsafe : quiz.views + n ≤ 2 ^ 53) (horder : List.Perm order (List.range n)) :
    completeSchedule n (serialSchedule order)
      ∧ storedViews (Concurrent.run quizId (Concurrent.init s) (serialSchedule order)).store
          quizId = some (quiz.views + n)
      ∧ (∀ i, i < n → ∃ v,
          ((Concurrent.run quizId (Concurrent.init s) (serialSchedule order)).calls i).returned
            = some v ∧ quiz.views < v ∧ v ≤ quiz.views + n)
      ∧ (∀ i j, i < n → j < n → i ≠ j →
          ((Concurrent.run quizId (Concurrent.init s) (serialSchedule order)).calls i).returned
            ≠ ((Concurrent.run quizId (Concurrent.init s) (serialSchedule order)).calls j).returned) := by
  have hnodup : order.Nodup := horder.nodup_iff.mpr (List.nodup_range n)
  have hlen : order.length = n := by rw [horder.length_eq, List.length_range]
  have hmem : ∀ i, i ∈ order ↔ i < n := fun i => by rw [horder.mem_iff, List.mem_range]
  obtain ⟨hviews, hret⟩ := Concurrent.run_serial quizId order (Concurrent.init s) quiz hfind
    (by rw [hlen]; exact hsafe) (fun _ _ => rfl) hnodup
  rw [hlen] at hviews hret
  have hmapnodup : (order.map (fun i =>
      ((Concurrent.run quizId (Concurrent.init s) (serialSchedule order)).calls i).returned)).Nodup := by
    rw [hret]
    exact (List.nodup_range' (quiz.views + 1) n).map (Option.some_injective Nat)
  refine ⟨⟨?_, ?_⟩, hviews, ?_, ?_⟩
  · intro i hi
    exact (hmem i).mp ((mem_serialSchedule i order).mp hi)
  · intro i hi
    rw [count_serialSchedule, List.count_eq_one_of_mem hnodup ((hmem i).mpr hi)]
  · intro i hi
    have hin : ((Concurrent.run quizId (Concurrent.init s) (serialSchedule order)).calls i).returned
        ∈ (List.range' (quiz.views + 1) n).map some := by
      rw [← hret]
      exact List.mem_map.mpr ⟨i, (hmem i).mpr hi, rfl⟩
    obtain ⟨v, hv, hvi⟩ := List.mem_map.mp hin
    rw [List.mem_range'_1] at hv
    exact ⟨v, hvi.symm, by omega, by omega⟩
  · intro i j hi hj hij heq
    exact hij (List.inj_on_of_nodup_map hmapnodup ((hmem i).mpr hi) ((hmem j).mpr hj) heq)

/-- Witness of `incrementViews_serial`: three requests on the first quiz of the
example store, served in the order 2, 0, 1. -/
theorem incrementViews_serial_witness :
    Quiz.findById exStore exQuizId.hex = some exQuiz ∧ exQuiz.views + 3 ≤ 2 ^ 53
      ∧ List.Perm [2, 0, 1] (List.range 3)
      ∧ storedViews
          (Concurrent.run exQuizId.hex (Concurrent.init exStore)
            (serialSchedule [2, 0, 1])).store
          exQuizId.hex = some (exQuiz.views + 3) :=
  ⟨rfl, by decide, by decide,
    (incrementViews_serial exStore exQuizId.hex exQuiz 3 [2, 0, 1] rfl (by decide)
      (by decide)).2.1⟩

/-! ## UpdateQuiz and UpdateQuestion -/

/-- C7: on an existing quiz and a store whose two calls do not throw, `UpdateQuiz`
with an empty (or absent) `name` and a non-empty string `type = X` answers 200 and
stores the old record with only `type` replaced by `X`: `name`, the id, the owner,
`questions` and `views` are as before.  No other quiz and no question changes. -/
theorem updateQuiz_empty_name (fault : Nat → Bool) (s : Store) (quizId : String)
    (quiz : Quiz) (body : Obj) (X : String)
    (hfind : Quiz.findById s quizId = some quiz) (h0 : fault 0 = false)
    (h1 : fault 1 = false)
    (hname : Obj.get body "name" = JSValue.str "" ∨ Obj.get body "name" = JSValue.undefined)
    (htype : Obj.get body "type" = JSValue.str X) (hX : X ≠ "") :
    (updateQuiz fault s quizId body).1
        = ⟨200, Body.quizUpdated "Quiz updated successfully"
            { quiz with type := JSValue.str X }⟩
      ∧ Quiz.findById (updateQuiz fault s quizId body).2 quizId
        = some { quiz with type := JSValue.str X }
      ∧ (∀ other, other ≠ quizId →
          Quiz.findById (updateQuiz fault s quizId body).2 other = Quiz.findById s other)
      ∧ (updateQuiz fault s quizId body).2.questions = s.questions := by
  have hid : quiz._id.hex = quizId := Quiz.found_quiz_id hfind
  have hn : (Obj.get body "name").truthy = false := by
    rcases hname with h | h <;> simp [h, JSValue.truthy]
  have ht : (JSValue.str X).truthy = true := by
    simp [JSValue.truthy, hX]
  have hrun : updateQuiz fault s quizId body
      = (⟨200, Body.quizUpdated "Quiz updated successfully"
            { quiz with type := JSValue.str X }⟩,
          Quiz.save s { quiz with type := JSValue.str X }) := by
    simp [updateQuiz, h0, h1, Quiz.query_found hfind, hn, ht, htype]
  rw [hrun]
  refine ⟨rfl, ?_, ?_, rfl⟩
  · exact Quiz.findById_save_hit hfind hid
  · intro other hne
    exact Quiz.findById_save_miss { quiz with type := JSValue.str X } hid hne

/-- Witness of `updateQuiz_empty_name`: `name = ""`, `type = "X"`. -/
theorem updateQuiz_empty_name_witness :
    Quiz.findById exStore exQuizId.hex = some exQuiz ∧ noFault 0 = false
      ∧ noFault 1 = false
      ∧ Obj.get [("name", JSValue.str ""), ("type", JSValue.str "X")] "type" = JSValue.str "X"
      ∧ "X" ≠ ""
      ∧ Quiz.findById
          (updateQuiz noFault exStore exQuizId.hex
            [("name", JSValue.str ""), ("type", JSValue.str "X")]).2 exQuizId.hex
        = some { exQuiz with type := JSValue.str "X" } :=
  ⟨rfl, rfl, rfl, rfl, by decide,
    (updateQuiz_empty_name noFault exStore exQuizId.hex exQuiz
      [("name", JSValue.str ""), ("type", JSValue.str "X")] "X" rfl rfl rfl
      (Or.inl rfl) rfl (by decide)).2.1⟩

/-- C6: on an existing quiz and a store whose two lookups do not throw,
`UpdateQuestion` for a question that belongs to another quiz and `UpdateQuestion`
for a question id that does not resolve get the same answer, 404
`"Question not found"`, and both leave the store as it was. -/
theorem updateQuestion_cross_quiz (fault : Nat → Bool) (member : String → Bool) (s : Store)
    (quizId questionId missingId : String) (owner : Id) (quiz : Quiz) (question : Question)
    (fields : Obj)
    (hquiz : Quiz.findById s quizId = some quiz)
    (hquestion : Question.findById s questionId = some question)
    (hlink : question.quiz = some owner) (hother : owner.hex ≠ quizId)
    (hmissing : ∀ q ∈ s.questions, q._id.hex ≠ missingId)
    (h0 : fault 0 = false) (h1 : fault 1 = false) :
    updateQuestion fault member s quizId questionId fields
        = (⟨404, Body.message "Question not found"⟩, s)
      ∧ updateQuestion fault member s quizId missingId fields
        = (⟨404, Body.message "Question not found"⟩, s) := by
  have hnone : Question.findById s missingId = none := by
    unfold Question.findById
    rw [List.find?_eq_none]
    intro x hx
    simpa using hmissing x hx
  have hquery := Quiz.query_found hquiz
  constructor
  · simp [updateQuestion, h0, h1, hquery, hquestion, hlink, hother, questionNotFound]
  · simp [updateQuestion, h0, h1, hquery, hnone, questionNotFound]

/-- Witness of `updateQuestion_cross_quiz`: the question of the second quiz,
addressed through the first quiz. -/
theorem updateQuestion_cross_quiz_witness :
    Quiz.findById exStore exQuizId.hex = some exQuiz
      ∧ Question.findById exStore exOtherQuestionId.hex = some exOtherQuestion
      ∧ exOtherQuestion.quiz = some exOtherQuizId ∧ exOtherQuizId.hex ≠ exQuizId.hex
      ∧ (∀ q ∈ exStore.questions, q._id.hex ≠ exAbsentQuestionId.hex)
      ∧ updateQuestion noFault exMember exStore exQuizId.hex exOtherQuestionId.hex
          [("text", JSValue.str "changed")]
        = (⟨404, Body.message "Question not found"⟩, exStore)
      ∧ updateQuestion noFault exMember exStore exQuizId.hex exAbsentQuestionId.hex
          [("text", JSValue.str "changed")]
        = (⟨404, Body.message "Question not found"⟩, exStore) :=
  have hmissing : ∀ q ∈ exStore.questions, q._id.hex ≠ exAbsentQuestionId.hex := by
    intro q hq
    simp only [exStore, List.mem_cons, List.mem_singleton, List.not_mem_nil, or_false] at hq
    rcases hq with rfl | rfl <;> decide
  have h := updateQuestion_cross_quiz noFault exMember exStore exQuizId.hex
    exOtherQuestionId.hex exAbsentQuestionId.hex exOtherQuizId exQuiz exOtherQuestion
    [("text", JSValue.str "changed")] rfl rfl rfl (by decide) hmissing rfl rfl
  ⟨rfl, rfl, rfl, by decide, hmissing, h.1, h.2⟩

/-- C5, as stated, fails: `fields` with the key `quiz`.  The first quiz and its
question exist, the question belongs to the quiz, the update succeeds with 200,
and afterwards the stored question is linked to the second quiz. -/
theorem updateQuestion_overwrites_quiz :
    Quiz.findById exStore exQuizId.hex = some exQuiz
      ∧ (Question.findById exStore exQuestionId.hex).map Question.quiz = some (some exQuizId)
      ∧ (updateQuestion noFault exMember exStore exQuizId.hex exQuestionId.hex
          [("quiz", JSValue.str exOtherQuizId.hex)]).1.status = 200
      ∧ (Question.findById
          (updateQuestion noFault exMember exStore exQuizId.hex exQuestionId.hex
            [("quiz", JSValue.str exOtherQuizId.hex)]).2
          exQuestionId.hex).map Question.quiz = some (some exOtherQuizId)
      ∧ some exOtherQuizId ≠ some exQuizId := by
  refine ⟨rfl, rfl, rfl, rfl, by decide⟩

/-- The other keys that a caller can aim at the identifier or at the document:
`_id` with another id and `save` end in 500 with the store as it was, and `id`
is ignored (200, the stored question is the one before). -/
theorem updateQuestion_other_keys :
    updateQuestion noFault exMember exStore exQuizId.hex exQuestionId.hex
        [("_id", JSValue.str exOtherQuestionId.hex)] = (serverError, exStore)
      ∧ updateQuestion noFault exMember exStore exQuizId.hex exQuestionId.hex
        [("save", JSValue.str "x")] = (serverError, exStore)
      ∧ (updateQuestion noFault exMember exStore exQuizId.hex exQuestionId.hex
        [("id", JSValue.str exOtherQuestionId.hex)]).1
          = ⟨200, Body.questionUpdated "Question updated successfully" exQuestion⟩
      ∧ Question.findById
          (updateQuestion noFault exMember exStore exQuizId.hex exQuestionId.hex
            [("id", JSValue.str exOtherQuestionId.hex)]).2 exQuestionId.hex
          = some exQuestion := by
  refine ⟨rfl, rfl, rfl, rfl⟩

/-- C5, amended: on an existing quiz and a question that belongs to it, after a
successful `UpdateQuestion` (status 200) with `fields` that do not have the key
`quiz`, the stored question has the same `quiz` linkage and the same id as
before; `fields` may have the keys `_id` and `id`. -/
theorem updateQuestion_keeps_linkage (fault : Nat → Bool) (member : String → Bool)
    (s : Store) (quizId questionId : String) (quiz : Quiz) (question : Question)
    (fields : Obj)
    (hquiz : Quiz.findById s quizId = some quiz)
    (hquestion : Question.findById s questionId = some question)
    (hlink : question.quiz = some quiz._id)
    (hnoquiz : Obj.hasKey fields "quiz" = false)
    (hok : (updateQuestion fault member s quizId questionId fields).1.status = 200) :
    ∃ question1,
      Question.findById (updateQuestion fault member s quizId questionId fields).2
          questionId = some question1
        ∧ question1.quiz = question.quiz ∧ question1._id = question._id := by
  have hquery := Quiz.query_found hquiz
  have hqid : quiz._id.hex = quizId := Quiz.found_quiz_id hquiz
  have hid : question._id.hex = questionId := Question.found_question_id hquestion
  cases h0 : fault 0 with
  | true => simp [updateQuestion, h0, serverError] at hok
  | false =>
    cases h1 : fault 1 with
    | true => simp [updateQuestion, h0, h1, hquery, serverError] at hok
    | false =>
      cases hassign : Question.assign member question fields with
      | none =>
        simp [updateQuestion, h0, h1, hquery, hquestion, hlink, hqid, hassign, serverError] at hok
      | some q1 =>
        cases h2 : fault 2 with
        | true =>
          simp [updateQuestion, h0, h1, h2, hquery, hquestion, hlink, hqid, hassign,
            serverError] at hok
        | false =>
          obtain ⟨hq, hi⟩ := Question.assign_keeps member fields question q1 hassign hnoquiz
          have hrun : updateQuestion fault member s quizId questionId fields
              = (⟨200, Body.questionUpdated "Question updated successfully" q1⟩,
                  Question.save s questionId q1) := by
            simp [updateQuestion, h0, h1, h2, hquery, hquestion, hlink, hqid, hassign]
          refine ⟨q1, ?_, hq, hi⟩
          rw [hrun]
          unfold Question.findById Question.save
          exact find?_replaceFirst_hit (fun x : Question => x._id.hex == questionId) q1
            (by simp [hi, hid]) s.questions question hquestion

/-- Witness of `updateQuestion_keeps_linkage`: the text of the first question is
replaced. -/
theorem updateQuestion_keeps_linkage_witness :
    Quiz.findById exStore exQuizId.hex = some exQuiz
      ∧ Question.findById exStore exQuestionId.hex = some exQuestion
      ∧ exQuestion.quiz = some exQuiz._id
      ∧ Obj.hasKey [("text", JSValue.str "Capital of Italy?")] "quiz" = false
      ∧ (updateQuestion noFault exMember exStore exQuizId.hex exQuestionId.hex
          [("text", JSValue.str "Capital of Italy?")]).1.status = 200
      ∧ ∃ question1,
          Question.findById
              (updateQuestion noFault exMember exStore exQuizId.hex exQuestionId.hex
                [("text", JSValue.str "Capital of Italy?")]).2 exQuestionId.hex
            = some question1
          ∧ question1.quiz = exQuestion.quiz ∧ question1._id = exQuestion._id :=
  ⟨rfl, rfl, rfl, rfl, rfl,
    updateQuestion_keeps_linkage noFault exMember exStore exQuizId.hex exQuestionId.hex
      exQuiz exQuestion [("text", JSValue.str "Capital of Italy?")] rfl rfl rfl rfl rfl⟩

/-! ## DeleteQuiz -/

/-- C8: in a store with unique quiz ids, a `DeleteQuiz` of an existing quiz whose
two store calls do not throw answers 200, and afterwards the store holds no quiz
with that id and no question whose `quiz` is that id (whether or not there were
such questions); a `DeleteQuiz` of the same id right after it answers 404
`"Quiz not found"`. -/
theorem deleteQuiz_cascade (fault again : Nat → Bool) (s : Store) (quizId : String)
    (quiz : Quiz)
    (hunique : (s.quizzes.map Quiz._id).Nodup)
    (hfind : Quiz.findById s quizId = some quiz)
    (h0 : fault 0 = false) (h1 : fault 1 = false) (hagain : again 0 = false) :
    (deleteQuiz fault s quizId).1
        = ⟨200, Body.message "Quiz and associated questions deleted successfully"⟩
      ∧ (∀ q ∈ (deleteQuiz fault s quizId).2.quizzes, q._id.hex ≠ quizId)
      ∧ (∀ x ∈ (deleteQuiz fault s quizId).2.questions, x.quiz.map Id.hex ≠ some quizId)
      ∧ deleteQuiz again (deleteQuiz fault s quizId).2 quizId
        = (⟨404, Body.message "Quiz not found"⟩, (deleteQuiz fault s quizId).2) := by
  have hcast : isObjectId quizId = true := Quiz.found_is_id hfind
  have hhex : (s.quizzes.map (fun q : Quiz => q._id.hex)).Nodup := by
    have h := hunique.map Id.hex_injective
    rwa [List.map_map] at h
  have hrun : deleteQuiz fault s quizId
      = (⟨200, Body.message "Quiz and associated questions deleted successfully"⟩,
          Question.deleteMany
            { s with quizzes := removeFirst (fun x : Quiz => x._id.hex == quizId) s.quizzes }
            quizId) := by
    simp [deleteQuiz, Quiz.queryAndDelete, Quiz.findByIdAndDelete, hcast, h0, h1, hfind]
  have hgone : ∀ q ∈ (deleteQuiz fault s quizId).2.quizzes, q._id.hex ≠ quizId := by
    rw [hrun]
    exact not_mem_removeFirst (fun q : Quiz => q._id.hex) quizId s.quizzes hhex
  refine ⟨by rw [hrun], hgone, ?_, ?_⟩
  · rw [hrun]
    intro x hx
    simp only [Question.deleteMany, List.mem_filter] at hx
    simpa using hx.2
  · have hnone := Quiz.findById_none_of_absent hgone
    generalize (deleteQuiz fault s quizId).2 = s2 at hnone
    simp [deleteQuiz, Quiz.queryAndDelete, Quiz.findByIdAndDelete, hcast, hagain, hnone,
      quizNotFound]

/-- Witness of `deleteQuiz_cascade` on the example store. -/
theorem deleteQuiz_cascade_witness :
    (exStore.quizzes.map Quiz._id).Nodup ∧ Quiz.findById exStore exQuizId.hex = some exQuiz
      ∧ (deleteQuiz noFault exStore exQuizId.hex).1
        = ⟨200, Body.message "Quiz and associated questions deleted successfully"⟩
      ∧ (∀ x ∈ (deleteQuiz noFault exStore exQuizId.hex).2.questions,
          x.quiz.map Id.hex ≠ some exQuizId.hex)
      ∧ deleteQuiz noFault (deleteQuiz noFault exStore exQuizId.hex).2 exQuizId.hex
        = (⟨404, Body.message "Quiz not found"⟩,
            (deleteQuiz noFault exStore exQuizId.hex).2) :=
  have hunique : (exStore.quizzes.map Quiz._id).Nodup := by decide
  have h := deleteQuiz_cascade noFault noFault exStore exQuizId.hex exQuiz hunique rfl rfl
    rfl rfl
  ⟨hunique, rfl, h.1, h.2.2.1, h.2.2.2⟩

/-! ## Unknown quiz ids and malformed bodies -/

/-- C9, as stated, fails: the path parameter `abc`.  No quiz of the example
store has this id, and each of the six operations answers 500 `"Server error"`
and not 404: the store cannot cast the parameter to an identifier and the
lookup throws.  The store is left as it was. -/
theorem unknown_quiz_cast_error :
    (∀ q ∈ exStore.quizzes, q._id.hex ≠ exBadId)
      ∧ addQuestions noFault exMkId exStore exBadId
          [("questions", JSValue.arr [JSValue.obj [("text", JSValue.str "Capital of Japan?")]])]
        = (⟨500, Body.message "Server error"⟩, exStore)
      ∧ getQuizDetail noFault id exStore exBadId = (⟨500, Body.message "Server error"⟩, exStore)
      ∧ incrementViews noFault exStore exBadId = (⟨500, Body.message "Server error"⟩, exStore)
      ∧ deleteQuiz noFault exStore exBadId = (⟨500, Body.message "Server error"⟩, exStore)
      ∧ updateQuiz noFault exStore exBadId [("name", JSValue.str "Geography")]
        = (⟨500, Body.message "Server error"⟩, exStore)
      ∧ updateQuestion noFault exMember exStore exBadId exQuestionId.hex
          [("text", JSValue.str "changed")]
        = (⟨500, Body.message "Server error"⟩, exStore) := by
  refine ⟨?_, rfl, rfl, rfl, rfl, rfl, rfl⟩
  intro q hq
  simp only [exStore, List.mem_cons, List.mem_singleton, List.not_mem_nil, or_false] at hq
  rcases hq with rfl | rfl <;> decide

/-- C9, amended: for a quiz id that is a well-formed identifier (24 hexadecimal
digits) and that no record of the store carries, and a store whose lookup does
not throw, each of the six operations that take a quiz id answers 404
`"Quiz not found"` whatever its other inputs are, and leaves the store as it
was. -/
theorem unknown_quiz_not_found (fault : Nat → Bool) (mkId : Nat → Id)
    (expandOptions : Question → Question) (member : String → Bool) (s : Store)
    (quizId questionId : String) (body : Obj)
    (habsent : ∀ q ∈ s.quizzes, q._id.hex ≠ quizId) (hcast : isObjectId quizId = true)
    (h0 : fault 0 = false) :
    addQuestions fault mkId s quizId body = (⟨404, Body.message "Quiz not found"⟩, s)
      ∧ getQuizDetail fault expandOptions s quizId = (⟨404, Body.message "Quiz not found"⟩, s)
      ∧ incrementViews fault s quizId = (⟨404, Body.message "Quiz not found"⟩, s)
      ∧ deleteQuiz fault s quizId = (⟨404, Body.message "Quiz not found"⟩, s)
      ∧ updateQuiz fault s quizId body = (⟨404, Body.message "Quiz not found"⟩, s)
      ∧ updateQuestion fault member s quizId questionId body
        = (⟨404, Body.message "Quiz not found"⟩, s) := by
  have hnone : Quiz.findById s quizId = none := Quiz.findById_none_of_absent habsent
  have hquery : Quiz.query s quizId = some none := Quiz.query_absent habsent hcast
  refine ⟨?_, ?_, ?_, ?_, ?_, ?_⟩
  · simp [addQuestions, h0, hquery, quizNotFound]
  · simp [getQuizDetail, h0, hquery, quizNotFound]
  · simp [incrementViews, h0, hquery, quizNotFound]
  · simp [deleteQuiz, Quiz.queryAndDelete, Quiz.findByIdAndDelete, h0, hnone, hcast,
      quizNotFound]
  · simp [updateQuiz, h0, hquery, quizNotFound]
  · simp [updateQuestion, h0, hquery, quizNotFound]

/-- Witness of `unknown_quiz_not_found` on the example store. -/
theorem unknown_quiz_not_found_witness :
    (∀ q ∈ exStore.quizzes, q._id.hex ≠ exAbsentQuizId.hex)
      ∧ isObjectId exAbsentQuizId.hex = true ∧ noFault 0 = false
      ∧ addQuestions noFault exMkId exStore exAbsentQuizId.hex
          [("questions", JSValue.arr [JSValue.obj [("text", JSValue.str "Capital of Japan?")]])]
        = (⟨404, Body.message "Quiz not found"⟩, exStore)
      ∧ deleteQuiz noFault exStore exAbsentQuizId.hex
        = (⟨404, Body.message "Quiz not found"⟩, exStore) :=
  have habsent : ∀ q ∈ exStore.quizzes, q._id.hex ≠ exAbsentQuizId.hex := by
    intro q hq
    simp only [exStore, List.mem_cons, List.mem_singleton, List.not_mem_nil, or_false] at hq
    rcases hq with rfl | rfl <;> decide
  have h := unknown_quiz_not_found noFault exMkId id exMember exStore exAbsentQuizId.hex
    exQuestionId.hex
    [("questions", JSValue.arr [JSValue.obj [("text", JSValue.str "Capital of Japan?")]])]
    habsent (by decide) rfl
  ⟨habsent, by decide, rfl, h.1, h.2.2.2.1⟩

/-- C10: on an existing quiz and a store whose lookup does not throw, a body whose
`questions` is not an array (a string, a number, an object, `null`, or no such
property) is answered with 400 `"Invalid input format"`, and the store is left as
it was: the quiz is not changed and no question is created. -/
theorem addQuestions_not_array (fault : Nat → Bool) (mkId : Nat → Id) (s : Store)
    (quizId : String) (quiz : Quiz) (body : Obj)
    (hfind : Quiz.findById s quizId = some quiz) (h0 : fault 0 = false)
    (hshape : (Obj.get body "questions").isArray = false) :
    addQuestions fault mkId s quizId body
      = (⟨400, Body.message "Invalid input format"⟩, s) := by
  simp [addQuestions, h0, Quiz.query_found hfind, hshape, invalidInput]

/-- Witness of `addQuestions_not_array`: `questions` is the string
`"not-an-array"`. -/
theorem addQuestions_not_array_witness :
    Quiz.findById exStore exQuizId.hex = some exQuiz ∧ noFault 0 = false
      ∧ (Obj.get [("questions", JSValue.str "not-an-array")] "questions").isArray = false
      ∧ addQuestions noFault exMkId exStore exQuizId.hex
          [("questions", JSValue.str "not-an-array")]
        = (⟨400, Body.message "Invalid input format"⟩, exStore) :=
  ⟨rfl, rfl, rfl,
    addQuestions_not_array noFault exMkId exStore exQuizId.hex exQuiz
      [("questions", JSValue.str "not-an-array")] rfl rfl rfl⟩
end Quizzie
